import Mathlib

/-!
Shallow embedding of the Wormhole peer-mesh engine (offscreen document,
`src/offscreen.js`, plus the side-panel message consumer) in Lean 4, together
with proofs of the specified behavioural properties.

Identity ids (`odId`) are JavaScript strings compared with `<` / `>`
(lexicographic); we model them as Lean `String`, whose order is also
lexicographic.
-/

namespace Wormhole

/-- Peer / user identity ids are opaque strings (`odId`). -/
abbrev PeerId := String

/-- Lexicographic comparison of character sequences by code point, the order
JavaScript's `<` uses on strings. -/
def codeUnitsLt : List Char → List Char → Bool
  | [], [] => false
  | [], _ :: _ => true
  | _ :: _, [] => false
  | c :: cs, d :: ds =>
      if c.toNat < d.toNat then true
      else if d.toNat < c.toNat then false
      else codeUnitsLt cs ds

/-- JavaScript's `a < b` on strings. -/
def jsLt (a b : String) : Bool := codeUnitsLt a.data b.data

/- ### Constants (from `src/offscreen.js`) -/

def MAX_USERS_PER_ROOM : Nat := 8

def RECONNECT_MAX_RETRIES : Nat := 5

def RECONNECT_BASE_DELAY : Nat := 1000

def RECONNECT_MAX_DELAY : Nat := 30000

/- ### Role and politeness tie-breaks

`createPeerConnection`: `const isInitiator = currentUser.odId > peerId;`
`handleSignal`, offer case: `const polite = currentUser.odId < from;` -/

/-- `createPeerConnection`: the local side initiates iff its own id is the
greater one (`currentUser.odId > peerId`). -/
def isInitiator (selfId peerId : PeerId) : Bool := jsLt peerId selfId

/-- `handleSignal`, offer case: the local side is polite iff its own id is the
smaller one (`currentUser.odId < from`). -/
def polite (selfId fromId : PeerId) : Bool := jsLt selfId fromId

/- ### Reconnect Supervisor (`handlePeerDisconnect` in `src/offscreen.js`) -/

/-- What `handlePeerDisconnect` decides to do, given the session's current
`retryCount`. -/
inductive DisconnectAction
  /-- "Max retries": `closePeerConnection(peerId)` tears the session down and
  removes it from the `peers` map; no retry timer is scheduled. The
  connection-state callback has already surfaced the terminal
  `failed`/`disconnected` state. -/
  | closeSession
  /-- `setTimeout(…, delay)` is scheduled and `retryCount` is bumped to
  `newRetryCount`. -/
  | scheduleRetry (delay : Nat) (newRetryCount : Nat)
deriving DecidableEq, Repr

/-- `handlePeerDisconnect`'s retry decision (the session exists; the
`if (!peerData) return` guard has passed). -/
def handlePeerDisconnect (retryCount : Nat) : DisconnectAction :=
  if RECONNECT_MAX_RETRIES ≤ retryCount then
    .closeSession
  else
    .scheduleRetry
      (min (RECONNECT_BASE_DELAY * 2 ^ retryCount) RECONNECT_MAX_DELAY)
      (retryCount + 1)

/-- The stale-timer guard inside the scheduled callback:
`if (peers.has(peerId) && roomUsers.has(peerId))` — the retry proceeds only
if the session has not been closed (still in `peers`) and the peer is still
a room member (still in `roomUsers`). -/
def retryFireProceeds (sessionStillOpen stillRoomMember : Bool) : Bool :=
  sessionStillOpen && stillRoomMember

/- ### Negotiation state machine (per peer connection)

The relevant observable state of an `RTCPeerConnection` for the signalling
logic in `handleSignal`: its `signalingState`, its local and remote session
descriptions, and the remote ICE candidates it has accepted. -/

/-- `RTCPeerConnection.signalingState` values reachable in this engine. -/
inductive SignalingState
  | stable
  | haveLocalOffer
  | haveRemoteOffer
deriving DecidableEq, Repr

/-- A session description (`sdp` payloads are opaque strings). -/
inductive Desc
  | offer (sdp : String)
  | answer (sdp : String)
deriving DecidableEq, Repr

/-- Observable `RTCPeerConnection` state used by `handleSignal`. -/
structure PC where
  signalingState : SignalingState
  localDesc : Option Desc
  remoteDesc : Option Desc
  remoteCandidates : List String
deriving DecidableEq, Repr

/-- A freshly constructed `RTCPeerConnection` (state `stable`, no
descriptions, no candidates). -/
def PC.fresh : PC :=
  { signalingState := .stable, localDesc := none, remoteDesc := none,
    remoteCandidates := [] }

/-- `pc.setRemoteDescription(offer)`: store the remote offer; signaling state
becomes `have-remote-offer`. -/
def PC.setRemoteOffer (pc : PC) (sdp : String) : PC :=
  { pc with signalingState := .haveRemoteOffer, remoteDesc := some (.offer sdp) }

/-- `pc.setLocalDescription({type: 'rollback'})`: discard the pending local
offer, returning to `stable`. -/
def PC.rollback (pc : PC) : PC :=
  { pc with signalingState := .stable, localDesc := none }

/-- `pc.createAnswer()`: an answer to the currently set remote offer. -/
def PC.createAnswer (pc : PC) : Desc :=
  .answer (match pc.remoteDesc with
           | some (.offer s) => s
           | _ => "")

/-- `pc.setLocalDescription(answer)`: store the answer locally; signaling
state becomes `stable`. -/
def PC.setLocalAnswer (pc : PC) (a : Desc) : PC :=
  { pc with signalingState := .stable, localDesc := some a }

/-- `pc.setRemoteDescription(answer)`: store the remote answer; signaling
state becomes `stable`. -/
def PC.setRemoteAnswer (pc : PC) (sdp : String) : PC :=
  { pc with signalingState := .stable, remoteDesc := some (.answer sdp) }

/-- An inbound signal's kind and payload (`signal.type` / `signal.data`).
The `data.candidate` field of an `ice-candidate` signal may be absent. -/
inductive Sig
  | offer (sdp : String)
  | answer (sdp : String)
  | iceCandidate (candidate : Option String)
deriving DecidableEq, Repr

/-- An outbound signal produced by `sendSignal(to, type, data)`. -/
structure OutSignal where
  dest : PeerId
  payload : Desc
deriving DecidableEq, Repr

/-- Result of running the `switch` body of `handleSignal` on one signal:
the updated connection state and the signals sent. The surrounding
`try`/`catch` logs every error, so the handler always returns normally;
`addIceFails` below models `pc.addIceCandidate` throwing (caught and only
warned about). -/
structure StepResult where
  pc : PC
  sent : List OutSignal
deriving DecidableEq, Repr

/-- The `switch (type)` body of `handleSignal` in `src/offscreen.js`,
for a signal from `fromId` processed by the local user `selfId`. -/
def handleSignal (selfId fromId : PeerId) (s : Sig) (addIceFails : Bool)
    (pc : PC) : StepResult :=
  match s with
  | .offer sdp =>
      let p := polite selfId fromId
      let offerCollision :=
        pc.signalingState ≠ .stable ∧ pc.signalingState = .haveLocalOffer
      if offerCollision ∧ p = false then
        -- "Ignoring offer collision … (I am impolite)" — early return
        { pc := pc, sent := [] }
      else
        let pc1 :=
          if offerCollision then (pc.rollback).setRemoteOffer sdp
          else pc.setRemoteOffer sdp
        let a := pc1.createAnswer
        let pc2 := pc1.setLocalAnswer a
        { pc := pc2, sent := [{ dest := fromId, payload := a }] }
  | .answer sdp =>
      if pc.signalingState ≠ .haveLocalOffer then
        -- "Ignoring answer from …, state is …"
        { pc := pc, sent := [] }
      else
        { pc := pc.setRemoteAnswer sdp, sent := [] }
  | .iceCandidate cand =>
      match cand with
      | some c =>
          if pc.remoteDesc.isSome then
            if addIceFails then
              -- `addIceCandidate` threw: caught, warned, state unchanged
              { pc := pc, sent := [] }
            else
              { pc := { pc with remoteCandidates := pc.remoteCandidates ++ [c] },
                sent := [] }
          else
            -- remote description not set: candidate dropped, not buffered
            { pc := pc, sent := [] }
      | none => { pc := pc, sent := [] }

/- ### The `peers` map (`const peers = new Map()` in `src/offscreen.js`)

The per-peer record is the object
`{ pc, dc, retryCount, isInitiator, queue }`.  We track which fields the
routing logic inspects: whether `pc` is non-null (`pcInit`), `retryCount`,
and the `isInitiator` flag (absent on the bare stub that `listenForSignals`
creates).  `oid` is the JavaScript object identity: promise chaining
`obj.queue = obj.queue.then(…)` serializes exactly the handlers chained
through the same object, so a fresh object starts a fresh chain. -/

structure PeerObj where
  oid : Nat
  pcInit : Bool
  retryCount : Nat
  isInit : Option Bool
deriving DecidableEq, Repr

/-- The `peers` map, as its underlying association list (insertion order). -/
abbrev PeersMap := List (PeerId × PeerObj)

/-- `peers.has(pid)` -/
def mapHas (m : PeersMap) (pid : PeerId) : Bool := m.any (fun e => e.1 == pid)

/-- `peers.get(pid)` -/
def mapGet (m : PeersMap) (pid : PeerId) : Option PeerObj :=
  (m.find? (fun e => e.1 == pid)).map Prod.snd

/-- `peers.set(pid, obj)`: replace the entry if the key is present, else
append a new entry. -/
def mapSet (m : PeersMap) (pid : PeerId) (obj : PeerObj) : PeersMap :=
  if mapHas m pid then m.map (fun e => if e.1 == pid then (pid, obj) else e)
  else m ++ [(pid, obj)]

/-- `peers.delete(pid)` -/
def mapDelete (m : PeersMap) (pid : PeerId) : PeersMap :=
  m.filter (fun e => !(e.1 == pid))

/-- The keys of the `peers` map, in insertion order. -/
def keysOf (m : PeersMap) : List PeerId := m.map Prod.fst

/-- Engine state relevant to session creation: the `peers` map plus a
counter for fresh object identities. -/
structure MeshState where
  peers : PeersMap
  nextOid : Nat
deriving DecidableEq, Repr

def MeshState.empty : MeshState := { peers := [], nextOid := 0 }

/-- `createPeerConnection(peerId)`: no-op when a session already exists
(`if (peers.has(peerId)) return`); otherwise creates the full record with
`retryCount: 0` and `isInitiator` from the id tie-break. -/
def createPeerConnection (selfId : PeerId) (pid : PeerId) (st : MeshState) :
    MeshState :=
  if mapHas st.peers pid then st
  else
    { peers := mapSet st.peers pid
        { oid := st.nextOid, pcInit := true, retryCount := 0,
          isInit := some (isInitiator selfId pid) },
      nextOid := st.nextOid + 1 }

/-- `listenForSignals`, offer from a peer with no entry yet:
`peerData = { pc: null, dc: null, retryCount: 0, queue: Promise.resolve() }`
("We'll create the basic structure so we have a queue"). -/
def signalStub (pid : PeerId) (st : MeshState) : MeshState :=
  { peers := mapSet st.peers pid
      { oid := st.nextOid, pcInit := false, retryCount := 0, isInit := none },
    nextOid := st.nextOid + 1 }

/-- `handleSignal`'s creation path, run at the start of processing an offer:
`if ((!peerData || !peerData.pc) && type === 'offer')` it builds a fresh
`RTCPeerConnection` and a **fresh record** (fresh `queue`), and
`peers.set(from, peerData)` replaces whatever was there. -/
def offerCreatesSession (pid : PeerId) (st : MeshState) : MeshState :=
  match mapGet st.peers pid with
  | some obj =>
      if obj.pcInit then st
      else
        { peers := mapSet st.peers pid
            { oid := st.nextOid, pcInit := true, retryCount := 0,
              isInit := some false },
          nextOid := st.nextOid + 1 }
  | none =>
      { peers := mapSet st.peers pid
          { oid := st.nextOid, pcInit := true, retryCount := 0,
            isInit := some false },
        nextOid := st.nextOid + 1 }

/-- `closePeerConnection(peerId)`: closes `dc`/`pc` and
`peers.delete(peerId)`. -/
def closePeerConnection (pid : PeerId) (st : MeshState) : MeshState :=
  { st with peers := mapDelete st.peers pid }

/-- The engine steps that touch the `peers` map. -/
inductive MeshOp
  /-- `child_added` on the users list → `createPeerConnection`. -/
  | memberJoined (pid : PeerId)
  /-- An offer signal from `pid`: `listenForSignals` creates the queue stub
  if no entry exists, and the queued `handleSignal` then runs its creation
  path. -/
  | offerArrives (pid : PeerId)
  /-- `child_removed` on the users list → `closePeerConnection`. -/
  | memberLeft (pid : PeerId)
  /-- `leaveRoom()`: closes every session and `peers.clear()`. -/
  | roomLeft

def applyMeshOp (selfId : PeerId) (st : MeshState) : MeshOp → MeshState
  | .memberJoined pid => createPeerConnection selfId pid st
  | .offerArrives pid =>
      let st1 := if mapHas st.peers pid then st else signalStub pid st
      offerCreatesSession pid st1
  | .memberLeft pid => closePeerConnection pid st
  | .roomLeft => { st with peers := [] }

/-- Run the engine from an empty room over a sequence of membership/signal
events. -/
def runMesh (selfId : PeerId) (ops : List MeshOp) : MeshState :=
  ops.foldl (applyMeshOp selfId) MeshState.empty

/- ### Signal dispatch and per-peer queues (`listenForSignals`)

`listenForSignals` chains each inbound signal on
`peerData.queue = peerData.queue.then(() => handleSignal(signal)).catch(…)`,
where `peerData` is the object **currently** in the `peers` map.  Handlers
chained through the same object run strictly one after another; handlers
chained through different objects are independent promise chains that the
event loop may interleave at `await` points.  We record, for each arriving
signal, the identity (`oid`) of the object whose queue it was chained on. -/

/-- Dispatch-level state: the mesh plus the chain assignment
(signal serial number ↦ `oid` of the queue object it chained on). -/
structure DispatchState where
  mesh : MeshState
  assign : List (Nat × Nat)
deriving DecidableEq, Repr

/-- Dispatch-level events: a signal arriving at the `onChildAdded` callback,
and the moment its queued `handleSignal` begins running. -/
inductive DispatchEv
  /-- The `onChildAdded` callback for signal number `serial` from `fromId`
  runs (synchronously): get-or-stub the peer record and chain the handler on
  its `queue`. -/
  | arrive (serial : Nat) (fromId : PeerId) (isOffer : Bool)
  /-- The queued `handleSignal` for a signal from `fromId` starts; for an
  offer its creation path runs (synchronously, before its first `await`). -/
  | beginHandle (fromId : PeerId) (isOffer : Bool)

def applyDispatchEv (st : DispatchState) : DispatchEv → DispatchState
  | .arrive serial fromId isOffer =>
      match mapGet st.mesh.peers fromId with
      | some obj =>
          { st with assign := st.assign ++ [(serial, obj.oid)] }
      | none =>
          if isOffer then
            let stubOid := st.mesh.nextOid
            { mesh := signalStub fromId st.mesh,
              assign := st.assign ++ [(serial, stubOid)] }
          else
            -- "Ignoring signal … from unknown peer" — dropped
            st
  | .beginHandle fromId isOffer =>
      if isOffer then { st with mesh := offerCreatesSession fromId st.mesh }
      else st

def runDispatch (evs : List DispatchEv) : DispatchState :=
  evs.foldl applyDispatchEv { mesh := MeshState.empty, assign := [] }

/- ### Executions of the queued handlers

Processing one signal spans a `beginSig`/`endSig` interval (the handler
suspends at `await` points in between).  An execution is valid for a chain
assignment when every assigned signal is processed begin-before-end and
signals on the *same* chain run strictly one after another in assignment
order — exactly what promise chaining guarantees.  Distinct chains are
unconstrained. -/

inductive ProcEvent
  | beginSig (serial : Nat)
  | endSig (serial : Nat)
deriving DecidableEq, BEq, Repr

/-- Index of an event in an execution. -/
def evPos (exec : List ProcEvent) (e : ProcEvent) : Option Nat :=
  exec.findIdx? (fun x => x == e)

/-- `e1` occurs strictly before `e2` in `exec`. -/
def posLt (exec : List ProcEvent) (e1 e2 : ProcEvent) : Bool :=
  match evPos exec e1, evPos exec e2 with
  | some i, some j => i < j
  | _, _ => false

/-- Same-chain FIFO: for any two assigned signals on the same chain, the
earlier-assigned one ends before the later one begins. -/
def chainFIFO (exec : List ProcEvent) : List (Nat × Nat) → Bool
  | [] => true
  | sc :: rest =>
      rest.all (fun sc2 =>
        if sc2.2 = sc.2 then posLt exec (.endSig sc.1) (.beginSig sc2.1)
        else true)
      && chainFIFO exec rest

/-- An execution the promise-chaining code admits for a given assignment. -/
def validExec (assign : List (Nat × Nat)) (exec : List ProcEvent) : Bool :=
  assign.all (fun sc => posLt exec (.beginSig sc.1) (.endSig sc.1))
  && chainFIFO exec assign

/-- The property the spec claims: the signals of the assignment are applied
strictly in arrival order — each one ends before the next begins. -/
def strictArrivalOrder (assign : List (Nat × Nat)) (exec : List ProcEvent) :
    Bool :=
  match assign with
  | [] => true
  | sc :: rest =>
      (rest.all (fun sc2 => posLt exec (.endSig sc.1) (.beginSig sc2.1)))
      && strictArrivalOrder rest exec

/-- The glare-adjacent failing input: peer `"p"`'s first signal (serial 1)
is an offer arriving before any session exists; while its queued handler is
running (it has replaced the stub, then suspends at `await
pc.setRemoteDescription`), a second signal (serial 2) from `"p"` arrives. -/
def glareTrace : List DispatchEv :=
  [.arrive 1 "p" true, .beginHandle "p" true, .arrive 2 "p" false]

/-- A processing order the dispatch admits for `glareTrace`: signal 2 is
processed entirely inside signal 1's processing interval. -/
def overlapExec : List ProcEvent :=
  [.beginSig 1, .beginSig 2, .endSig 2, .endSig 1]

/- ### Room membership (`joinRoom` / `leaveRoom` in `src/offscreen.js`) -/

/-- The local identity (`user` argument of `joinRoom`). -/
structure User where
  odId : String
  nickname : String
  email : Option String
deriving DecidableEq, Repr

/-- Messages posted to the service worker (`sendToServiceWorker`). -/
inductive SwMsg
  | roomFull (userCount : Nat)
  | roomJoined (roomId : String)
  | roomLeft
  | errorMsg
deriving DecidableEq, Repr

/-- Externally visible actions of `joinRoom`/`leaveRoom`, in program order. -/
inductive Eff
  /-- `get(ref(db, path))` — the capacity query. -/
  | relayRead (path : String)
  /-- `set(ref(db, path), …)` — writing the presence record. -/
  | relayWrite (path : String)
  /-- `remove(ref(db, path))`. -/
  | relayRemove (path : String)
  /-- `onDisconnect(userRef).remove()` registration. -/
  | registerOnDisconnect (path : String)
  /-- `listenForUsers` + `listenForSignals` subscriptions. -/
  | attachListeners (roomId : String)
  | toServiceWorker (m : SwMsg)
deriving DecidableEq, Repr

/-- Relay mutations (writes). Reads and listener subscriptions are not
writes; notifications to the service worker are local. -/
def Eff.isRelayWrite : Eff → Bool
  | .relayWrite _ => true
  | .relayRemove _ => true
  | .registerOnDisconnect _ => true
  | _ => false

/-- Offscreen-document module state touched by `joinRoom`/`leaveRoom`. -/
structure RoomState where
  dbInit : Bool
  currentRoomId : Option String
  currentUser : Option User
  userRefPath : Option String
  signalsListening : Bool
  usersListening : Bool
  peerIds : List PeerId
  roomUserIds : List PeerId
deriving DecidableEq, Repr

/-- `leaveRoom()`: no-op without a current room; otherwise closes all peer
sessions, clears `peers`/`roomUsers`, removes the presence record, detaches
the listeners, clears `currentRoomId` and reports `ROOM_LEFT`.
(`currentUser` itself is not cleared.) -/
def leaveRoom (st : RoomState) : RoomState × List Eff :=
  match st.currentRoomId with
  | none => (st, [])
  | some _ =>
      let removeEffs :=
        match st.userRefPath with
        | some p => [Eff.relayRemove p]
        | none => []
      ({ st with currentRoomId := none, userRefPath := none,
                 signalsListening := false, usersListening := false,
                 peerIds := [], roomUserIds := [] },
       removeEffs ++ [Eff.toServiceWorker .roomLeft])

/-- Result of `joinRoom`: its returned boolean, the state it leaves behind
and the effects it performed, in order. -/
structure JoinResult where
  ok : Bool
  st : RoomState
  effs : List Eff
deriving DecidableEq, Repr

/-- `joinRoom(roomId, user)`, with the relay's answer to the capacity query
supplied as `memberCount` and the Firebase configuration check as
`configured`. -/
def joinRoom (roomId : String) (user : User) (configured : Bool)
    (memberCount : Nat) (st : RoomState) : JoinResult :=
  if !(st.dbInit || configured) then
    -- `initFirebase()` threw; caught: ERROR reported, `false` returned
    { ok := false, st := st, effs := [.toServiceWorker .errorMsg] }
  else
    let st0 := { st with dbInit := true }
    let readEff := Eff.relayRead ("rooms/" ++ roomId ++ "/users")
    if !(memberCount < MAX_USERS_PER_ROOM) then
      { ok := false, st := st0,
        effs := [readEff, .toServiceWorker (.roomFull MAX_USERS_PER_ROOM)] }
    else
      let leaveStep :=
        match st0.currentRoomId with
        | some _ => leaveRoom st0
        | none => (st0, [])
      let st1 := leaveStep.1
      let path := "rooms/" ++ roomId ++ "/users/" ++ user.odId
      let st2 := { st1 with currentRoomId := some roomId,
                            currentUser := some user,
                            userRefPath := some path,
                            signalsListening := true, usersListening := true }
      { ok := true, st := st2,
        effs := [readEff] ++ leaveStep.2 ++
          [.relayWrite path, .registerOnDisconnect path,
           .attachListeners roomId,
           .toServiceWorker (.roomJoined roomId)] }

/- ### Side-panel message consumer (`src/sidepanel/sidepanel.js`) -/

/-- A parsed inbound chat payload. `id` is `none` when the payload has no
`id` field. -/
structure ChatMsg where
  id : Option String
  fromId : String
  text : String
deriving DecidableEq, Repr

/-- A rendered (delivered) message in the panel's `messages` array. -/
structure RenderedMsg where
  msg : ChatMsg
  isSelf : Bool
deriving DecidableEq, Repr

/-- Side-panel state touched by the message path: the `users` map keys, the
`messages` array and the `seenMessageIds` set (as the list of its elements
in insertion order). -/
structure PanelState where
  users : List String
  messages : List RenderedMsg
  seenMessageIds : List String
deriving DecidableEq, Repr

/-- `handleChatMessage({message, isSelf})`:
`if (msgId && seenMessageIds.has(msgId)) return;` then
`if (msgId) seenMessageIds.add(msgId);` then push and render.  A missing
(or empty, hence falsy) `id` skips both dedup steps. -/
def handleChatMessage (currentUserId : Option String) (st : PanelState)
    (message : ChatMsg) (isSelf : Bool) : PanelState :=
  let rendered : RenderedMsg :=
    { msg := message,
      isSelf := isSelf || (some message.fromId == currentUserId) }
  match message.id with
  | some mid =>
      if mid ≠ "" then
        if st.seenMessageIds.contains mid then st
        else { st with seenMessageIds := st.seenMessageIds ++ [mid],
                       messages := st.messages ++ [rendered] }
      else { st with messages := st.messages ++ [rendered] }
  | none => { st with messages := st.messages ++ [rendered] }

/-- `handleRoomLeft()`: clears `users`, `messages` and `seenMessageIds`. -/
def handleRoomLeft (_st : PanelState) : PanelState :=
  { users := [], messages := [], seenMessageIds := [] }

/-- Deliver the same `{message, isSelf}` event `n` times in a row. -/
def deliverTimes (currentUserId : Option String) (message : ChatMsg)
    (isSelf : Bool) (st : PanelState) : Nat → PanelState
  | 0 => st
  | n + 1 =>
      deliverTimes currentUserId message isSelf
        (handleChatMessage currentUserId st message isSelf) n

/- ### Order facts about `jsLt` (asymmetry and totality on distinct ids) -/

theorem codeUnitsLt_asymm : ∀ l1 l2 : List Char,
    codeUnitsLt l1 l2 = true → codeUnitsLt l2 l1 = false := by
  intro l1
  induction l1 with
  | nil => intro l2 h; cases l2 <;> simp [codeUnitsLt] at *
  | cons c cs ih =>
      intro l2 h
      cases l2 with
      | nil => simp [codeUnitsLt] at h
      | cons d ds =>
          simp only [codeUnitsLt] at h ⊢
          by_cases h1 : c.toNat < d.toNat
          · simp [h1, Nat.lt_asymm h1]
          · by_cases h2 : d.toNat < c.toNat
            · simp [h1, h2] at h
            · simp [h1, h2] at h ⊢
              exact ih ds h

theorem codeUnitsLt_total : ∀ l1 l2 : List Char, l1 ≠ l2 →
    codeUnitsLt l1 l2 = true ∨ codeUnitsLt l2 l1 = true := by
  intro l1
  induction l1 with
  | nil =>
      intro l2 h
      cases l2 with
      | nil => exact absurd rfl h
      | cons d ds => left; simp [codeUnitsLt]
  | cons c cs ih =>
      intro l2 h
      cases l2 with
      | nil => right; simp [codeUnitsLt]
      | cons d ds =>
          by_cases h1 : c.toNat < d.toNat
          · left; simp [codeUnitsLt, h1]
          · by_cases h2 : d.toNat < c.toNat
            · right; simp [codeUnitsLt, h2]
            · have hcd : c = d := by
                have hn : c.toNat = d.toNat :=
                  Nat.le_antisymm (Nat.le_of_not_lt h2) (Nat.le_of_not_lt h1)
                exact Char.eq_of_val_eq (UInt32.eq_of_val_eq (Fin.ext hn))
              subst hcd
              have hne : cs ≠ ds := by intro he; exact h (by rw [he])
              rcases ih ds hne with h3 | h3
              · left; simp [codeUnitsLt, h1, h2, h3]
              · right; simp [codeUnitsLt, h1, h2, h3]

theorem String.data_ne {a b : String} (h : a ≠ b) : a.data ≠ b.data := by
  intro he
  apply h
  cases a; cases b; simp_all

theorem jsLt_asymm {a b : String} (h : jsLt a b = true) : jsLt b a = false :=
  codeUnitsLt_asymm _ _ h

theorem jsLt_total {a b : String} (h : a ≠ b) :
    jsLt a b = true ∨ jsLt b a = true :=
  codeUnitsLt_total _ _ (String.data_ne h)

/-- On distinct strings, `jsLt` one way is the negation of the other way. -/
theorem jsLt_eq_not {a b : String} (h : a ≠ b) : jsLt a b = !(jsLt b a) := by
  rcases jsLt_total h with h1 | h1
  · rw [h1, jsLt_asymm h1]; rfl
  · rw [jsLt_asymm h1, h1]; rfl

/- ### Key-uniqueness of the `peers` map -/

/-- Replacing the entry whose key is `pid` leaves the key list unchanged. -/
theorem keys_replace (m : PeersMap) (pid : PeerId) (obj : PeerObj) :
    keysOf (m.map (fun e => if e.1 == pid then (pid, obj) else e))
      = keysOf m := by
  induction m with
  | nil => rfl
  | cons e rest ih =>
      simp only [keysOf, List.map_cons] at ih ⊢
      by_cases he : (e.1 == pid) = true
      · rw [if_pos he, ih, (eq_of_beq he : e.1 = pid)]
      · rw [if_neg he, ih]

theorem mapHas_iff {m : PeersMap} {pid : PeerId} :
    mapHas m pid = true ↔ pid ∈ keysOf m := by
  simp [mapHas, List.any_eq_true, keysOf, List.mem_map, beq_iff_eq]

theorem nodup_mapSet {m : PeersMap} {pid : PeerId} {obj : PeerObj}
    (h : (keysOf m).Nodup) : (keysOf (mapSet m pid obj)).Nodup := by
  unfold mapSet
  by_cases hh : mapHas m pid = true
  · rw [if_pos hh, keys_replace]
    exact h
  · rw [if_neg hh]
    have hmem : pid ∉ keysOf m := fun hm => hh (mapHas_iff.mpr hm)
    have hk : keysOf (m ++ [(pid, obj)]) = keysOf m ++ [pid] := by
      simp [keysOf]
    rw [hk]
    refine List.nodup_append.mpr ⟨h, List.nodup_singleton pid, ?_⟩
    intro a ha hb
    rw [List.mem_singleton] at hb
    subst hb
    exact hmem ha

theorem nodup_mapDelete {m : PeersMap} {pid : PeerId}
    (h : (keysOf m).Nodup) : (keysOf (mapDelete m pid)).Nodup :=
  h.sublist (List.Sublist.map Prod.fst (List.filter_sublist m))

theorem nodup_offerCreatesSession {pid : PeerId} {st : MeshState}
    (h : (keysOf st.peers).Nodup) :
    (keysOf (offerCreatesSession pid st).peers).Nodup := by
  unfold offerCreatesSession
  cases hg : mapGet st.peers pid with
  | none => exact nodup_mapSet h
  | some obj =>
      by_cases hp : obj.pcInit = true
      · simp [hp]
        exact h
      · simp [hp]
        exact nodup_mapSet h

theorem nodup_applyMeshOp (selfId : PeerId) (st : MeshState) (op : MeshOp)
    (h : (keysOf st.peers).Nodup) :
    (keysOf (applyMeshOp selfId st op).peers).Nodup := by
  cases op with
  | memberJoined pid =>
      unfold applyMeshOp createPeerConnection
      by_cases hh : mapHas st.peers pid = true
      · simp [hh]
        exact h
      · simp [hh]
        exact nodup_mapSet h
  | offerArrives pid =>
      unfold applyMeshOp
      by_cases hh : mapHas st.peers pid = true
      · simp only [hh, if_pos]
        exact nodup_offerCreatesSession h
      · simp only [hh, if_neg, Bool.false_eq_true, not_false_iff]
        exact nodup_offerCreatesSession (nodup_mapSet h)
  | memberLeft pid =>
      exact nodup_mapDelete h
  | roomLeft =>
      simp [applyMeshOp, keysOf]

/-- Every reachable `peers` map has pairwise-distinct keys. -/
theorem nodup_runMesh (selfId : PeerId) (ops : List MeshOp) :
    (keysOf (runMesh selfId ops).peers).Nodup := by
  suffices h : ∀ st : MeshState, (keysOf st.peers).Nodup →
      (keysOf (ops.foldl (applyMeshOp selfId) st).peers).Nodup from
    h MeshState.empty (by simp [MeshState.empty, keysOf])
  induction ops with
  | nil => intro st h; exact h
  | cons op rest ih =>
      intro st h
      exact ih _ (nodup_applyMeshOp selfId st op h)

end Wormhole

namespace Wormhole

/- Quick sanity facts used while developing (kept as `example`s). -/

example : polite "a" "b" = true := by decide

example : isInitiator "b" "a" = true := by decide

example :
    handleSignal "a" "b" (.offer "o1") false
      { signalingState := .haveLocalOffer, localDesc := some (.offer "mine"),
        remoteDesc := none, remoteCandidates := [] } =
    { pc := { signalingState := .stable, localDesc := some (.answer "o1"),
              remoteDesc := some (.offer "o1"), remoteCandidates := [] },
      sent := [{ dest := "b", payload := .answer "o1" }] } := by decide

/- ### Claim theorems -/

/-- C1: processing an incoming offer computes `polite = self.id < peer.id`
(so for distinct ids exactly one side is polite); in the glare case
(signaling state `have-local-offer`): if impolite, the offer is ignored and
the state is unchanged; if polite, the local offer is rolled back and the
remote description accepted; and in every accepted case an answer is
created, set as local description, and an answer signal is sent to the
peer. -/
theorem C1_offer_glare_resolution (selfId fromId : PeerId)
    (h : selfId ≠ fromId) (sdp : String) (addIceFails : Bool) (pc : PC) :
    (polite selfId fromId = !(polite fromId selfId))
    ∧ (pc.signalingState = .haveLocalOffer → polite selfId fromId = false →
        handleSignal selfId fromId (.offer sdp) addIceFails pc =
          { pc := pc, sent := [] })
    ∧ (pc.signalingState = .haveLocalOffer → polite selfId fromId = true →
        handleSignal selfId fromId (.offer sdp) addIceFails pc =
          { pc := { signalingState := .stable,
                    localDesc := some (.answer sdp),
                    remoteDesc := some (.offer sdp),
                    remoteCandidates := pc.remoteCandidates },
            sent := [{ dest := fromId, payload := .answer sdp }] })
    ∧ ((pc.signalingState ≠ .haveLocalOffer ∨ polite selfId fromId = true) →
        (handleSignal selfId fromId (.offer sdp) addIceFails pc).pc.remoteDesc
            = some (.offer sdp)
        ∧ (handleSignal selfId fromId (.offer sdp) addIceFails pc).pc.localDesc
            = some (.answer sdp)
        ∧ (handleSignal selfId fromId (.offer sdp) addIceFails pc).sent
            = [{ dest := fromId, payload := .answer sdp }]) := by
  refine ⟨jsLt_eq_not h, ?_, ?_, ?_⟩
  · intro hs hp
    simp [handleSignal, hs, hp]
  · intro hs hp
    simp [handleSignal, hs, hp, PC.rollback, PC.setRemoteOffer,
      PC.createAnswer, PC.setLocalAnswer]
  · intro hcase
    rcases hcase with hs | hp
    · cases h1 : pc.signalingState <;>
        simp_all [handleSignal, PC.setRemoteOffer, PC.createAnswer,
          PC.setLocalAnswer]
    · cases h1 : pc.signalingState <;>
        simp_all [handleSignal, PC.rollback, PC.setRemoteOffer,
          PC.createAnswer, PC.setLocalAnswer]

/-- Witness for C1 at concrete inputs: ids `"a" < "b"`, local side mid-offer
(glare) and polite, so it rolls back, accepts the remote offer and answers. -/
theorem C1_offer_glare_resolution_witness :
    ("a" : String) ≠ "b"
    ∧ handleSignal "a" "b" (.offer "o") false
        { signalingState := .haveLocalOffer, localDesc := some (.offer "m"),
          remoteDesc := none, remoteCandidates := [] } =
      { pc := { signalingState := .stable, localDesc := some (.answer "o"),
                remoteDesc := some (.offer "o"), remoteCandidates := [] },
        sent := [{ dest := "b", payload := .answer "o" }] } :=
  ⟨by decide,
   (C1_offer_glare_resolution "a" "b" (by decide) "o" false
      { signalingState := .haveLocalOffer, localDesc := some (.offer "m"),
        remoteDesc := none, remoteCandidates := [] }).2.2.1 rfl (by decide)⟩

/-- C2: role assignment is deterministic and symmetric — for distinct ids
exactly one side is Initiator toward the other, namely the side whose own
id is the greater one; recomputation is a pure function of the two ids. -/
theorem C2_initiator_tiebreak (a b : PeerId) (h : a ≠ b) :
    (isInitiator a b = !(isInitiator b a))
    ∧ (isInitiator a b = jsLt b a) := by
  refine ⟨?_, rfl⟩
  show jsLt b a = !(jsLt a b)
  exact jsLt_eq_not (fun he => h he.symm)

/-- Witness for C2 at ids `"b"`, `"a"`: `"b"` (greater) is Initiator toward
`"a"`, and not conversely. -/
theorem C2_initiator_tiebreak_witness :
    ("b" : String) ≠ "a"
    ∧ (isInitiator "b" "a" = !(isInitiator "a" "b"))
    ∧ (isInitiator "b" "a" = jsLt "a" "b") :=
  ⟨by decide, C2_initiator_tiebreak "b" "a" (by decide)⟩

/-- C3: on a disconnect/failed event, `retryCount ≥ 5` closes the session
terminally with no retry scheduled; otherwise the scheduled delay is exactly
`min (1000 * 2 ^ retryCount) 30000` ms and `retryCount` is incremented; and
the fired timer proceeds only if the session is still present and the peer
is still a room member. -/
theorem C3_reconnect_backoff (k : Nat) (p r : Bool) :
    (RECONNECT_MAX_RETRIES ≤ k → handlePeerDisconnect k = .closeSession)
    ∧ (k < RECONNECT_MAX_RETRIES →
        handlePeerDisconnect k =
          .scheduleRetry (min (1000 * 2 ^ k) 30000) (k + 1))
    ∧ (retryFireProceeds p r = true ↔ p = true ∧ r = true) := by
  refine ⟨?_, ?_, ?_⟩
  · intro hk
    simp [handlePeerDisconnect, hk]
  · intro hk
    simp [handlePeerDisconnect, Nat.not_le.mpr hk,
      RECONNECT_BASE_DELAY, RECONNECT_MAX_DELAY]
  · cases p <;> cases r <;> simp [retryFireProceeds]

/-- Witness for C3 at `retryCount = 5` (terminal, no retry), `retryCount =
3` (delay exactly `8000` ms), and a fired timer whose peer left the room
(retry does not proceed). -/
theorem C3_reconnect_backoff_witness :
    handlePeerDisconnect 5 = .closeSession
    ∧ handlePeerDisconnect 3 = .scheduleRetry 8000 4
    ∧ retryFireProceeds true false = false :=
  ⟨(C3_reconnect_backoff 5 true false).1 (by decide),
   (C3_reconnect_backoff 3 true false).2.1 (by decide),
   by decide⟩

/-- C7: an incoming answer is applied (set as remote description, state →
stable) only when the signaling state is `have-local-offer`; in any other
state it is dropped and the negotiation state is unchanged. -/
theorem C7_answer_requires_local_offer (selfId fromId : PeerId)
    (sdp : String) (addIceFails : Bool) (pc : PC) :
    (pc.signalingState ≠ .haveLocalOffer →
        handleSignal selfId fromId (.answer sdp) addIceFails pc =
          { pc := pc, sent := [] })
    ∧ (pc.signalingState = .haveLocalOffer →
        handleSignal selfId fromId (.answer sdp) addIceFails pc =
          { pc := { pc with signalingState := .stable,
                            remoteDesc := some (.answer sdp) },
            sent := [] }) := by
  constructor
  · intro hs
    simp [handleSignal, hs]
  · intro hs
    simp [handleSignal, hs, PC.setRemoteAnswer]

/-- Witness for C7: a stale answer in state `stable` is dropped unchanged;
an answer in state `have-local-offer` is applied and reaches `stable`. -/
theorem C7_answer_requires_local_offer_witness :
    handleSignal "a" "b" (.answer "x") false PC.fresh =
      { pc := PC.fresh, sent := [] }
    ∧ handleSignal "a" "b" (.answer "x") false
        { signalingState := .haveLocalOffer, localDesc := some (.offer "m"),
          remoteDesc := none, remoteCandidates := [] } =
      { pc := { signalingState := .stable, localDesc := some (.offer "m"),
                remoteDesc := some (.answer "x"), remoteCandidates := [] },
        sent := [] } :=
  ⟨(C7_answer_requires_local_offer "a" "b" "x" false PC.fresh).1 (by decide),
   (C7_answer_requires_local_offer "a" "b" "x" false
      { signalingState := .haveLocalOffer, localDesc := some (.offer "m"),
        remoteDesc := none, remoteCandidates := [] }).2 rfl⟩

/-- C8: an ice-candidate is applied only when a remote description is set;
with no remote description it is dropped — the connection state is left
exactly as it was, nothing is buffered — and even a failing
`addIceCandidate` is caught, so candidate processing never fails fatally. -/
theorem C8_ice_candidate_gating (selfId fromId : PeerId)
    (cand : Option String) (c : String) (addIceFails : Bool) (pc : PC) :
    (pc.remoteDesc = none →
        handleSignal selfId fromId (.iceCandidate cand) addIceFails pc =
          { pc := pc, sent := [] })
    ∧ (cand = some c → pc.remoteDesc.isSome = true → addIceFails = false →
        handleSignal selfId fromId (.iceCandidate cand) addIceFails pc =
          { pc := { pc with
                      remoteCandidates := pc.remoteCandidates ++ [c] },
            sent := [] })
    ∧ (addIceFails = true →
        (handleSignal selfId fromId (.iceCandidate cand) addIceFails pc).pc
          = pc) := by
  refine ⟨?_, ?_, ?_⟩
  · intro hr
    cases cand <;> simp [handleSignal, hr]
  · intro hc hr hf
    subst hc hf
    simp [handleSignal, hr]
  · intro hf
    subst hf
    cases cand <;> cases hr : pc.remoteDesc <;> simp [handleSignal, hr]

/-- Witness for C8: with no remote description a real candidate is dropped
with the connection state untouched; with a remote description set it is
added. -/
theorem C8_ice_candidate_gating_witness :
    handleSignal "a" "b" (.iceCandidate (some "c1")) false PC.fresh =
      { pc := PC.fresh, sent := [] }
    ∧ handleSignal "a" "b" (.iceCandidate (some "c1")) false
        { signalingState := .haveRemoteOffer, localDesc := none,
          remoteDesc := some (.offer "o"), remoteCandidates := [] } =
      { pc := { signalingState := .haveRemoteOffer, localDesc := none,
                remoteDesc := some (.offer "o"),
                remoteCandidates := ["c1"] },
        sent := [] } :=
  ⟨(C8_ice_candidate_gating "a" "b" (some "c1") "c1" false PC.fresh).1 rfl,
   (C8_ice_candidate_gating "a" "b" (some "c1") "c1" false
      { signalingState := .haveRemoteOffer, localDesc := none,
        remoteDesc := some (.offer "o"), remoteCandidates := [] }).2.1
     rfl rfl rfl⟩

/-- A message whose (non-empty) id is already in `seenMessageIds` is
dropped: the panel state is completely unchanged. -/
theorem handleChatMessage_seen_drop (cu : Option String) (st : PanelState)
    (m : ChatMsg) (b : Bool) (mid : String) (hid : m.id = some mid)
    (hne : mid ≠ "") (hseen : mid ∈ st.seenMessageIds) :
    handleChatMessage cu st m b = st := by
  simp [handleChatMessage, hid, hne, hseen]

/-- First delivery of a message with a fresh (non-empty) id: the id joins
the seen-set and the message is appended once. -/
theorem handleChatMessage_first (cu : Option String) (st : PanelState)
    (m : ChatMsg) (b : Bool) (mid : String) (hid : m.id = some mid)
    (hne : mid ≠ "") (hnew : mid ∉ st.seenMessageIds) :
    handleChatMessage cu st m b =
      { st with seenMessageIds := st.seenMessageIds ++ [mid],
                messages := st.messages ++
                  [{ msg := m, isSelf := b || (some m.fromId == cu) }] } := by
  simp [handleChatMessage, hid, hne, hnew]

/-- Redelivering to a state the handler fixes is a no-op, any number of
times. -/
theorem deliverTimes_stable (cu : Option String) (m : ChatMsg) (b : Bool)
    (st : PanelState) (h : handleChatMessage cu st m b = st) :
    ∀ n, deliverTimes cu m b st n = st := by
  intro n
  induction n with
  | zero => rfl
  | succ k ih =>
      rw [deliverTimes, h]
      exact ih

/- C4 theorem below; C6/C10 theorems further down. -/

/-- C4 (divergence, evaluated at the failing input): on `glareTrace` —
peer `"p"`'s first signal is an offer arriving before any session exists,
and a second signal from `"p"` arrives while the offer's queued handler is
running — the dispatch logic chains the two signals on *different* queue
objects (`oid` 0, the stub, and `oid` 1, the replacement that
`handleSignal`'s creation path installed with a fresh resolved `queue`).
Consequently `overlapExec`, in which signal 2 is processed entirely inside
signal 1's processing interval, is an execution the promise chains admit
(`validExec`), yet it violates the claimed strict per-peer arrival order
(`strictArrivalOrder`). -/
theorem C4_queue_replacement_breaks_order :
    (runDispatch glareTrace).assign = [(1, 0), (2, 1)]
    ∧ validExec (runDispatch glareTrace).assign overlapExec = true
    ∧ posLt overlapExec (.beginSig 2) (.endSig 1) = true
    ∧ strictArrivalOrder (runDispatch glareTrace).assign overlapExec
        = false := by
  decide

/-- C5: a `joinRoom` that observes a member count of at least
`MAX_USERS_PER_ROOM = 8` returns failure, reports `ROOM_FULL` with capacity
`8`, performs no relay write of any kind (its only effects are the capacity
read and the local notification), and leaves the room/user state, presence
registration, listeners and peer/user maps untouched. -/
theorem C5_join_full_room_no_side_effects (roomId : String) (user : User)
    (configured : Bool) (memberCount : Nat) (st : RoomState)
    (hdb : st.dbInit = true ∨ configured = true)
    (hfull : MAX_USERS_PER_ROOM ≤ memberCount) :
    (joinRoom roomId user configured memberCount st).ok = false
    ∧ (joinRoom roomId user configured memberCount st).effs =
        [.relayRead ("rooms/" ++ roomId ++ "/users"),
         .toServiceWorker (.roomFull 8)]
    ∧ ((joinRoom roomId user configured memberCount st).effs.all
        (fun e => !(e.isRelayWrite)) = true)
    ∧ (joinRoom roomId user configured memberCount st).st.currentRoomId
        = st.currentRoomId
    ∧ (joinRoom roomId user configured memberCount st).st.currentUser
        = st.currentUser
    ∧ (joinRoom roomId user configured memberCount st).st.userRefPath
        = st.userRefPath
    ∧ (joinRoom roomId user configured memberCount st).st.signalsListening
        = st.signalsListening
    ∧ (joinRoom roomId user configured memberCount st).st.usersListening
        = st.usersListening
    ∧ (joinRoom roomId user configured memberCount st).st.peerIds
        = st.peerIds
    ∧ (joinRoom roomId user configured memberCount st).st.roomUserIds
        = st.roomUserIds := by
  have hcond : (st.dbInit || configured) = true := by
    rcases hdb with h | h <;> simp [h]
  have hcap : ¬(memberCount < MAX_USERS_PER_ROOM) := Nat.not_lt.mpr hfull
  have hfull8 : 8 ≤ memberCount := hfull
  simp [joinRoom, hcond, hcap, hfull8, MAX_USERS_PER_ROOM, Eff.isRelayWrite]

/-- Witness for C5: joining with the room at exactly 8 members from an idle
engine state — failure, one capacity read, one `ROOM_FULL(8)` report. -/
theorem C5_join_full_room_no_side_effects_witness :
    (joinRoom "r1" { odId := "a", nickname := "n", email := none } true 8
      { dbInit := true, currentRoomId := none, currentUser := none,
        userRefPath := none, signalsListening := false,
        usersListening := false, peerIds := [], roomUserIds := [] }).ok
      = false
    ∧ (joinRoom "r1" { odId := "a", nickname := "n", email := none } true 8
      { dbInit := true, currentRoomId := none, currentUser := none,
        userRefPath := none, signalsListening := false,
        usersListening := false, peerIds := [], roomUserIds := [] }).effs
      = [.relayRead "rooms/r1/users", .toServiceWorker (.roomFull 8)] :=
  ⟨(C5_join_full_room_no_side_effects "r1"
      { odId := "a", nickname := "n", email := none } true 8
      { dbInit := true, currentRoomId := none, currentUser := none,
        userRefPath := none, signalsListening := false,
        usersListening := false, peerIds := [], roomUserIds := [] }
      (Or.inl rfl) (by decide)).1,
   (C5_join_full_room_no_side_effects "r1"
      { odId := "a", nickname := "n", email := none } true 8
      { dbInit := true, currentRoomId := none, currentUser := none,
        userRefPath := none, signalsListening := false,
        usersListening := false, peerIds := [], roomUserIds := [] }
      (Or.inl rfl) (by decide)).2.1⟩

/-- C6: delivering messages with the same (non-empty) id `n ≥ 1` times
yields exactly one rendered message (and the id recorded once); the
seen-set only grows across deliveries (no eviction); and leaving the room
clears the seen-set. -/
theorem C6_message_dedup (cu : Option String) (st : PanelState)
    (m : ChatMsg) (b : Bool) (mid : String) (n : Nat)
    (hid : m.id = some mid) (hne : mid ≠ "")
    (hnew : mid ∉ st.seenMessageIds) (hn : 1 ≤ n) :
    ((deliverTimes cu m b st n).messages = st.messages ++
        [{ msg := m, isSelf := b || (some m.fromId == cu) }])
    ∧ ((deliverTimes cu m b st n).seenMessageIds
        = st.seenMessageIds ++ [mid])
    ∧ (∀ st2 m2 b2 x, x ∈ st2.seenMessageIds →
        x ∈ (handleChatMessage cu st2 m2 b2).seenMessageIds)
    ∧ (∀ st2, (handleRoomLeft st2).seenMessageIds = []) := by
  obtain ⟨k, rfl⟩ : ∃ k, n = k + 1 :=
    ⟨n - 1, (Nat.succ_pred_eq_of_pos hn).symm⟩
  have hfirst := handleChatMessage_first cu st m b mid hid hne hnew
  have hseen1 : mid ∈ (handleChatMessage cu st m b).seenMessageIds := by
    rw [hfirst]
    simp
  have hdrop :
      handleChatMessage cu (handleChatMessage cu st m b) m b
        = handleChatMessage cu st m b :=
    handleChatMessage_seen_drop cu _ m b mid hid hne hseen1
  have hrun : deliverTimes cu m b st (k + 1) = handleChatMessage cu st m b := by
    show deliverTimes cu m b (handleChatMessage cu st m b) k
        = handleChatMessage cu st m b
    exact deliverTimes_stable cu m b _ hdrop k
  refine ⟨?_, ?_, ?_, fun _ => rfl⟩
  · rw [hrun, hfirst]
  · rw [hrun, hfirst]
  · intro st2 m2 b2 x hx
    unfold handleChatMessage
    cases hid2 : m2.id with
    | none => simpa using hx
    | some mid2 =>
        by_cases h1 : mid2 = ""
        · simp [h1]
          exact hx
        · by_cases h2 : mid2 ∈ st2.seenMessageIds
          · simp [h1, h2]
            exact hx
          · simp [h1, h2]
            exact Or.inl hx

/-- Witness for C6: the same message delivered three times to an empty
panel renders exactly once and records its id once. -/
theorem C6_message_dedup_witness :
    (deliverTimes none { id := some "m1", fromId := "p", text := "hi" }
        false { users := [], messages := [], seenMessageIds := [] }
        3).messages =
      [{ msg := { id := some "m1", fromId := "p", text := "hi" },
         isSelf := false }]
    ∧ (deliverTimes none { id := some "m1", fromId := "p", text := "hi" }
        false { users := [], messages := [], seenMessageIds := [] }
        3).seenMessageIds = ["m1"] :=
  ⟨(C6_message_dedup none
      { users := [], messages := [], seenMessageIds := [] }
      { id := some "m1", fromId := "p", text := "hi" } false "m1" 3 rfl
      (by decide) (by simp) (by decide)).1,
   (C6_message_dedup none
      { users := [], messages := [], seenMessageIds := [] }
      { id := some "m1", fromId := "p", text := "hi" } false "m1" 3 rfl
      (by decide) (by simp) (by decide)).2.1⟩

/-- Each delivery of an id-less message appends one rendered message and
leaves the seen-set untouched, for any number of deliveries. -/
theorem deliverTimes_no_id (cu : Option String) (m : ChatMsg) (b : Bool)
    (hid : m.id = none) :
    ∀ (n : Nat) (st : PanelState),
      ((deliverTimes cu m b st n).messages.length
        = st.messages.length + n)
      ∧ ((deliverTimes cu m b st n).seenMessageIds = st.seenMessageIds)
  | 0, st => ⟨rfl, rfl⟩
  | n + 1, st => by
      have ih := deliverTimes_no_id cu m b hid n (handleChatMessage cu st m b)
      show (deliverTimes cu m b (handleChatMessage cu st m b) n).messages.length
          = st.messages.length + (n + 1)
        ∧ (deliverTimes cu m b (handleChatMessage cu st m b) n).seenMessageIds
          = st.seenMessageIds
      constructor
      · rw [ih.1]
        simp [handleChatMessage, hid]
        omega
      · rw [ih.2]
        simp [handleChatMessage, hid]

/-- C10 (implicit): an inbound chat message whose parsed payload has no
`id` bypasses deduplication entirely — it is never added to the seen-set
and every one of `n` deliveries is rendered. -/
theorem C10_missing_id_bypasses_dedup (cu : Option String) (st : PanelState)
    (m : ChatMsg) (b : Bool) (n : Nat) (hid : m.id = none) :
    (handleChatMessage cu st m b =
      { st with messages := st.messages ++
          [{ msg := m, isSelf := b || (some m.fromId == cu) }] })
    ∧ ((deliverTimes cu m b st n).messages.length
        = st.messages.length + n)
    ∧ ((deliverTimes cu m b st n).seenMessageIds = st.seenMessageIds) := by
  refine ⟨?_, (deliverTimes_no_id cu m b hid n st).1,
    (deliverTimes_no_id cu m b hid n st).2⟩
  simp [handleChatMessage, hid]

/-- Witness for C10: an id-less message delivered twice renders twice and
never enters the seen-set. -/
theorem C10_missing_id_bypasses_dedup_witness :
    (deliverTimes none { id := none, fromId := "p", text := "hi" } false
      { users := [], messages := [], seenMessageIds := [] }
      2).messages.length = 2
    ∧ (deliverTimes none { id := none, fromId := "p", text := "hi" } false
      { users := [], messages := [], seenMessageIds := [] }
      2).seenMessageIds = [] :=
  ⟨(C10_missing_id_bypasses_dedup none
      { users := [], messages := [], seenMessageIds := [] }
      { id := none, fromId := "p", text := "hi" } false 2 rfl).2.1,
   (C10_missing_id_bypasses_dedup none
      { users := [], messages := [], seenMessageIds := [] }
      { id := none, fromId := "p", text := "hi" } false 2 rfl).2.2⟩

/-- C9: at every reachable state the `peers` map holds at most one session
per remote peer id (its key list is duplicate-free); `createPeerConnection`
is a no-op when an entry for the id already exists; and the
unsolicited-offer creation path in `handleSignal` is a no-op when a session
with an initialized connection (`pc` non-null) already exists. -/
theorem C9_session_uniqueness (selfId : PeerId) (ops : List MeshOp)
    (pid : PeerId) (st : MeshState) (obj : PeerObj) :
    ((keysOf (runMesh selfId ops).peers).Nodup)
    ∧ (mapHas st.peers pid = true → createPeerConnection selfId pid st = st)
    ∧ (mapGet st.peers pid = some obj → obj.pcInit = true →
        offerCreatesSession pid st = st) := by
  refine ⟨nodup_runMesh selfId ops, ?_, ?_⟩
  · intro hh
    simp [createPeerConnection, hh]
  · intro hg hp
    simp [offerCreatesSession, hg, hp]

/-- Witness for C9: a run with repeated joins and offers from the same peer
keeps a single entry, and both creation paths are no-ops on an existing
initialized session. -/
theorem C9_session_uniqueness_witness :
    ((keysOf (runMesh "z" [.memberJoined "a", .offerArrives "a",
        .memberJoined "a", .offerArrives "b"]).peers).Nodup)
    ∧ (createPeerConnection "z" "a"
        { peers :=
            [("a",
              { oid := 0, pcInit := true, retryCount := 0,
                isInit := some true })],
          nextOid := 1 } =
       { peers :=
           [("a",
             { oid := 0, pcInit := true, retryCount := 0,
               isInit := some true })],
         nextOid := 1 })
    ∧ (offerCreatesSession "a"
        { peers :=
            [("a",
              { oid := 0, pcInit := true, retryCount := 0,
                isInit := some true })],
          nextOid := 1 } =
       { peers :=
           [("a",
             { oid := 0, pcInit := true, retryCount := 0,
               isInit := some true })],
         nextOid := 1 }) :=
  ⟨(C9_session_uniqueness "z" [.memberJoined "a", .offerArrives "a",
      .memberJoined "a", .offerArrives "b"] "a"
      { peers :=
          [("a",
            { oid := 0, pcInit := true, retryCount := 0,
              isInit := some true })],
        nextOid := 1 }
      { oid := 0, pcInit := true, retryCount := 0, isInit := some true }).1,
   (C9_session_uniqueness "z" [] "a"
      { peers :=
          [("a",
            { oid := 0, pcInit := true, retryCount := 0,
              isInit := some true })],
        nextOid := 1 }
      { oid := 0, pcInit := true, retryCount := 0,
        isInit := some true }).2.1 (by decide),
   (C9_session_uniqueness "z" [] "a"
      { peers :=
          [("a",
            { oid := 0, pcInit := true, retryCount := 0,
              isInit := some true })],
        nextOid := 1 }
      { oid := 0, pcInit := true, retryCount := 0,
        isInit := some true }).2.2 (by decide) rfl⟩

end Wormhole
